import Mathlib

/-!
Shallow embedding of the `RayWrapper` model registry and request dispatcher
(`src/tests/testWrapper.py`).

The wrapper keeps three Python dicts (`models`, `model_functions`,
`model_configs`).  Python dicts are embedded as insertion-ordered association
lists over `String` keys: `dictSet` updates in place (keeping the position of
an existing key, as Python does), `dictDel` removes the entry, `dictGet` is
`dict.get` / `dict[k]`, `dictHas` is the `in` operator.

A "model object" is embedded as its attribute listing: `dir(obj)` is the list
of attribute names, `getattr` is a lookup, and each attribute carries whether
it is callable, its declared parameter names (as `inspect.signature` reports
them), its docstring, and — for callables — the behaviour when invoked with
keyword arguments (which may raise).  All keyword parameters of an embedded
callable are required, so a Python `TypeError` is raised exactly when the set
of provided keyword names differs from the declared parameter names, and also
when a non-callable attribute is invoked.
-/

/-- Python values carried in request parameters, init parameters and results. -/
inductive Value where
  | vstr : String → Value
  | vint : Int → Value
  | vbool : Bool → Value
  | vnone : Value
deriving DecidableEq

/-- The Python exceptions raised or caught on the wrapper's code paths. -/
inductive PyExc where
  | typeError : String → PyExc
  | keyError : String → PyExc
  | valueError : String → PyExc
  | otherExc : String → String → PyExc
deriving DecidableEq

/-- `str(e)` for an exception: `KeyError` renders its key in quotes. -/
def PyExc.msg : PyExc → String
  | .typeError m => m
  | .keyError k => "'" ++ k ++ "'"
  | .valueError m => m
  | .otherExc _ m => m

/-- `type(e).__name__` for an exception. -/
def PyExc.typeName : PyExc → String
  | .typeError _ => "TypeError"
  | .keyError _ => "KeyError"
  | .valueError _ => "ValueError"
  | .otherExc n _ => n

/-- `d.get(k)` / `d[k]` on an insertion-ordered dict. -/
def dictGet (k : String) : List (String × α) → Option α
  | [] => none
  | (k', v) :: t => if k' = k then some v else dictGet k t

/-- `d[k] = v`: update in place if the key exists (keeping its position, as a
Python dict does), else append. -/
def dictSet (k : String) (v : α) : List (String × α) → List (String × α)
  | [] => [(k, v)]
  | (k', v') :: t => if k' = k then (k, v) :: t else (k', v') :: dictSet k v t

/-- `del d[k]`.  On an absent key Python raises `KeyError`; this embedding is
the identity there.  The wrapper only deletes keys it has just membership
tested (`models`) or whose presence follows from the registry invariant proved
below (`model_functions`), so the divergence is unreachable. -/
def dictDel (k : String) : List (String × α) → List (String × α)
  | [] => []
  | (k', v') :: t => if k' = k then t else (k', v') :: dictDel k t

/-- `list(d.keys())`. -/
def dictKeys (d : List (String × α)) : List String := d.map Prod.fst

/-- `k in d`. -/
def dictHas (k : String) (d : List (String × α)) : Bool := (dictGet k d).isSome

/-- One attribute of a model object, as the wrapper observes it through
`getattr` / `callable` / `inspect.signature` / `__doc__` / invocation. -/
structure Attr where
  callable : Bool
  params : List String
  doc : Option String
  impl : List (String × Value) → Except PyExc Value

/-- A model object: `pyType` is `type(obj).__name__`; `attrs` lists every
attribute name `dir(obj)` reports, with its attribute value. -/
structure ModelObject where
  pyType : String
  attrs : List (String × Attr)

/-- The `functions` value of a model entry, as discriminated by
`register_model`: a Python `list` of names, a `dict` mapping exposed name to
method name, or anything else (which selects auto-discovery). -/
inductive FunctionSpec where
  | flist : List String → FunctionSpec
  | fmap : List (String × String) → FunctionSpec
  | fother : FunctionSpec
deriving DecidableEq

/-- A parsed `models` entry of the YAML configuration document; every key is
optional in the raw document, `model_config['name']` style subscripts raise
`KeyError` when the key is absent. -/
structure RawModelConfig where
  name : Option String
  class_path : Option String
  init_params : Option (List (String × Value))
  functions : Option FunctionSpec
deriving DecidableEq

/-- A successfully parsed configuration document; `config.get('models', [])`
is folded into the (possibly empty) `models` list. -/
structure YamlDoc where
  models : List RawModelConfig

/-- The import environment: what `importlib.import_module` + `getattr` resolve
a dotted class path to.  An unresolvable path is `none`; a resolvable one is a
constructor that may itself raise. -/
def Env := List (String × (List (String × Value) → Except String ModelObject))

/-- `RayWrapper._import_and_instantiate`: resolve the class path and call the
constructor with the init parameters; any failure is wrapped in a
`ValueError("Failed to import and instantiate ...")`. -/
def importAndInstantiate (env : Env) (class_path : String)
    (init_params : List (String × Value)) : Except PyExc ModelObject :=
  match dictGet class_path env with
  | none => .error (.valueError
      ("Failed to import and instantiate " ++ class_path ++ ": module or class not found"))
  | some ctor =>
    match ctor init_params with
    | .ok m => .ok m
    | .error e => .error (.valueError
        ("Failed to import and instantiate " ++ class_path ++ ": " ++ e))

/-- One step of the `isinstance(functions, list)` comprehension: keep a name
only if `hasattr` holds (there is no `callable` check) and bind
`getattr(model_instance, name)` under it. -/
def listStep (inst : ModelObject) (t : List (String × Attr)) (n : String) :
    List (String × Attr) :=
  match dictGet n inst.attrs with
  | some a => dictSet n a t
  | none => t

/-- The `isinstance(functions, list)` branch of `register_model`. -/
def buildTableList (inst : ModelObject) (names : List String) : List (String × Attr) :=
  names.foldl (listStep inst) []

/-- One step of the `isinstance(functions, dict)` comprehension: for an
`(exposed, method)` pair, bind `getattr(model_instance, method)` under
`exposed` when the method attribute exists (again no `callable` check). -/
def mapStep (inst : ModelObject) (t : List (String × Attr)) (p : String × String) :
    List (String × Attr) :=
  match dictGet p.2 inst.attrs with
  | some a => dictSet p.1 a t
  | none => t

/-- The `isinstance(functions, dict)` branch of `register_model`. -/
def buildTableMap (inst : ModelObject) (pairs : List (String × String)) : List (String × Attr) :=
  pairs.foldl (mapStep inst) []

/-- Python's `name.startswith('_')`: the first character is an underscore. -/
def pyStartsWithUnderscore (n : String) : Bool :=
  match n.data with
  | [] => false
  | c :: _ => c == '_'

/-- One step of the auto-discovery comprehension: keep a `dir` entry whose
attribute is callable and whose name does not start with an underscore. -/
def autoStep (t : List (String × Attr)) (p : String × Attr) : List (String × Attr) :=
  if p.2.callable && !(pyStartsWithUnderscore p.1) then dictSet p.1 p.2 t else t

/-- The auto-discovery branch: every name in `dir(model_instance)` whose
attribute is callable and does not start with an underscore. -/
def buildTableAuto (inst : ModelObject) : List (String × Attr) :=
  inst.attrs.foldl autoStep []

/-- The function table `register_model` stores for a given `functions` value. -/
def buildTable (inst : ModelObject) (functions : FunctionSpec) : List (String × Attr) :=
  match functions with
  | .flist names => buildTableList inst names
  | .fmap pairs => buildTableMap inst pairs
  | .fother => buildTableAuto inst

/-- The three dicts a `RayWrapper` instance owns. -/
structure State where
  models : List (String × ModelObject)
  model_functions : List (String × List (String × Attr))
  model_configs : List (String × RawModelConfig)

/-- The state right after `__init__` (before any config is loaded). -/
def initState : State := ⟨[], [], []⟩

/-- `RayWrapper.register_model`. -/
def register_model (s : State) (model_name : String) (model_instance : ModelObject)
    (functions : FunctionSpec) : State :=
  { s with
    models := dictSet model_name model_instance s.models,
    model_functions := dictSet model_name (buildTable model_instance functions) s.model_functions }

/-- `RayWrapper.register_model_from_config`.  A missing `name` or `class_path`
key raises `KeyError`; `init_params` defaults to `{}` and `functions` defaults
to `[]` (the empty Python list); instantiation failure propagates.  Only on
success are the model registered and the raw config stored. -/
def register_model_from_config (env : Env) (s : State) (model_config : RawModelConfig) :
    Except PyExc State :=
  match model_config.name with
  | none => .error (.keyError "name")
  | some model_name =>
    match model_config.class_path with
    | none => .error (.keyError "class_path")
    | some class_path =>
      match importAndInstantiate env class_path (model_config.init_params.getD []) with
      | .error e => .error e
      | .ok model_instance =>
        let s1 := register_model s model_name model_instance
          (model_config.functions.getD (.flist []))
        .ok { s1 with model_configs := dictSet model_name model_config s1.model_configs }

/-- `RayWrapper.unregister_model`. -/
def unregister_model (s : State) (model_name : String) : State :=
  if dictHas model_name s.models then
    { models := dictDel model_name s.models,
      model_functions := dictDel model_name s.model_functions,
      model_configs :=
        if dictHas model_name s.model_configs then dictDel model_name s.model_configs
        else s.model_configs }
  else s

/-- The loop body of `load_config`: register each entry in order; the first
exception aborts the loop, leaving the entries registered so far in place. -/
def registerAll (env : Env) : State → List RawModelConfig → State × Option PyExc
  | s, [] => (s, none)
  | s, c :: rest =>
    match register_model_from_config env s c with
    | .ok s' => registerAll env s' rest
    | .error e => (s, some e)

/-- The warning `load_config` prints when anything in its body raises. -/
def warnMsg (config_path m : String) : String :=
  "Warning: Could not load config from " ++ config_path ++ ": " ++ m

/-- `RayWrapper.load_config`: parse the document and register every entry,
with the whole body inside one `try` whose `except` catches `Exception` and
prints a warning.  The embedding takes the parse outcome as input (file I/O
and YAML syntax are external) and returns the new state together with the
printed warning, if any: no exception ever reaches the caller. -/
def load_config (env : Env) (config_path : String) (parsed : Except String YamlDoc)
    (s : State) : State × Option String :=
  match parsed with
  | .error e => (s, some (warnMsg config_path e))
  | .ok config =>
    match registerAll env s config.models with
    | (s', none) => (s', none)
    | (s', some e) => (s', some (warnMsg config_path e.msg))

/-- One row of the `list_models` report. -/
structure ModelInfo where
  type : String
  functions : List String
  config : RawModelConfig
deriving DecidableEq

/-- The `{}` default of `self.model_configs.get(model_name, {})`. -/
def emptyConfig : RawModelConfig := ⟨none, none, none, none⟩

/-- `RayWrapper.list_models`: one row per entry of `models`, in insertion
order, with the function-table keys and the stored raw config (or `{}`). -/
def list_models (s : State) : List (String × ModelInfo) :=
  s.models.map (fun p =>
    (p.1, { type := p.2.pyType,
            functions := dictKeys ((dictGet p.1 s.model_functions).getD []),
            config := (dictGet p.1 s.model_configs).getD emptyConfig }))

/-- `str(inspect.signature(func))` for an embedded callable. -/
def sigStr (a : Attr) : String := "(" ++ String.intercalate ", " a.params ++ ")"

/-- A value of the flat response object the dispatcher returns. -/
inductive RVal where
  | s : String → RVal
  | v : Value → RVal
  | strs : List String → RVal
  | kw : List (String × Value) → RVal
  | minfo : List (String × ModelInfo) → RVal
deriving DecidableEq

/-- `RayWrapper.get_function_signature`. -/
def get_function_signature (st : State) (model_name function_name : String) :
    List (String × RVal) :=
  match dictGet model_name st.model_functions with
  | none => [("error", RVal.s ("Model '" ++ model_name ++ "' not found"))]
  | some tbl =>
    match dictGet function_name tbl with
    | none => [("error", RVal.s ("Function '" ++ function_name ++ "' not found"))]
    | some func =>
      [("name", RVal.s function_name),
       ("signature", RVal.s (sigStr func)),
       ("parameters", RVal.strs func.params),
       ("doc", RVal.s (func.doc.getD "No documentation available"))]

/-- Python keyword binding for a callable all of whose parameters are
required: the call binds iff the provided names and the declared names agree
as sets. -/
def sigMatches (params provided : List String) : Bool :=
  provided.all (fun k => params.contains k) && params.all (fun p => provided.contains p)

/-- `target_function(**parameters)` (and `target_function()` when the dict is
empty, which binds the same way): a `TypeError` on a non-callable target or on
a keyword mismatch, otherwise whatever the attribute's behaviour produces. -/
def callKwargs (f : Attr) (kwargs : List (String × Value)) : Except PyExc Value :=
  if f.callable = false then
    .error (.typeError "object is not callable")
  else if sigMatches f.params (kwargs.map Prod.fst) then
    f.impl kwargs
  else
    .error (.typeError "unexpected or missing keyword arguments")

/-- The decoded request body: `data.get("action" / "model" / "function" /
"parameters")`. -/
structure Request where
  action : Option String
  model : Option String
  function : Option String
  parameters : Option (List (String × Value))

/-- Python truthiness of `data.get(k)` for a string field: absent and
empty-string values are both falsy. -/
def truthy : Option String → Bool
  | none => false
  | some s => !(s == "")

/-- The default-action (invoke) tail of `RayWrapper.__call__`. -/
def invokeAction (st : State) (data : Request) : List (String × RVal) :=
  let parameters := data.parameters.getD []
  if !truthy data.model then
    [("error", RVal.s "Model name is required"),
     ("available_models", RVal.strs (dictKeys st.models))]
  else
    let model_name := data.model.getD ""
    if !truthy data.function then
      [("error", RVal.s "Function name is required")]
    else
      let function_name := data.function.getD ""
      if !(dictHas model_name st.models) then
        [("error", RVal.s ("Model '" ++ model_name ++ "' not found")),
         ("available_models", RVal.strs (dictKeys st.models))]
      else
        match dictGet function_name ((dictGet model_name st.model_functions).getD []) with
        | none =>
          [("error", RVal.s ("Function '" ++ function_name ++ "' not found for model '"
              ++ model_name ++ "'")),
           ("available_functions",
            RVal.strs (dictKeys ((dictGet model_name st.model_functions).getD [])))]
        | some target_function =>
          match callKwargs target_function parameters with
          | .ok result =>
            [("result", RVal.v result),
             ("model", RVal.s model_name),
             ("function", RVal.s function_name),
             ("parameters", RVal.kw parameters)]
          | .error (.typeError m) =>
            [("error", RVal.s ("Function signature mismatch: " ++ m)),
             ("expected_signature", RVal.s (sigStr target_function)),
             ("provided_parameters", RVal.kw parameters)]
          | .error e =>
            [("error", RVal.s e.msg), ("type", RVal.s e.typeName)]

/-- `RayWrapper.__call__`: the whole handler sits in a `try` whose `except`
turns any exception (including request decoding) into `{error, type}`; the
special actions are checked first, everything else falls through to invoke. -/
def rwCall (st : State) (decoded : Except PyExc Request) : List (String × RVal) :=
  match decoded with
  | .error e => [("error", RVal.s e.msg), ("type", RVal.s e.typeName)]
  | .ok data =>
    if data.action == some "list_models" then
      [("models", RVal.minfo (list_models st))]
    else if data.action == some "function_signature" then
      if truthy data.model && truthy data.function then
        get_function_signature st (data.model.getD "") (data.function.getD "")
      else
        [("error", RVal.s "Both 'model' and 'function' parameters required for function_signature action")]
    else invokeAction st data

/-- Does a response carry a field named `k`? -/
def hasKey (r : List (String × RVal)) (k : String) : Bool := r.any (fun p => p.1 == k)

/-- Exactly one of `result` and `error` present. -/
def exactlyOneResultError (r : List (String × RVal)) : Bool :=
  hasKey r "result" != hasKey r "error"

/-- The registry-mutating operations of the wrapper's public surface. -/
inductive Op where
  | reg : String → ModelObject → FunctionSpec → Op
  | regCfg : RawModelConfig → Op
  | unreg : String → Op

/-- Apply one operation; a failing `register_model_from_config` raises before
any dict is touched, so the state is unchanged. -/
def applyOp (env : Env) (s : State) : Op → State
  | .reg n m f => register_model s n m f
  | .regCfg c =>
    match register_model_from_config env s c with
    | .ok s' => s'
    | .error _ => s
  | .unreg n => unregister_model s n

/-- Run a sequence of operations from the freshly initialised wrapper. -/
def runOps (env : Env) (ops : List Op) : State := ops.foldl (applyOp env) initState

/-- `Except.isOk` as a Bool, for stating decidable hypotheses about
registration outcomes. -/
def exceptIsOk : Except PyExc State → Bool
  | .ok _ => true
  | .error _ => false

/-- The message of a failed registration (empty on success). -/
def regErrMsg : Except PyExc State → String
  | .error e => e.msg
  | .ok _ => ""

/-- The effect of `dictSet` on a key list. -/
def keysIns (k : String) : List String → List String
  | [] => [k]
  | k' :: t => if k' = k then k' :: t else k' :: keysIns k t

/-- The effect of `dictDel` on a key list. -/
def keysDel (k : String) : List String → List String
  | [] => []
  | k' :: t => if k' = k then t else k' :: keysDel k t

/-- The keys of `model_functions` track the keys of `models`. -/
def regInv (s : State) : Prop := dictKeys s.models = dictKeys s.model_functions

/-- A trivial attribute behaviour for concrete test objects. -/
def attrNoop : List (String × Value) → Except PyExc Value := fun _ => .ok Value.vnone

/-- A model object with a single public callable `foo`. -/
def objC1 : ModelObject := ⟨"C1Obj", [("foo", ⟨true, [], none, attrNoop⟩)]⟩

/-- An import environment resolving `mod.C` to a constructor for `objC1`. -/
def envC1 : Env := [("mod.C", fun _ => .ok objC1)]

/-- A config entry with `name` and `class_path` but no `functions` key. -/
def cfgC1 : RawModelConfig := ⟨some "m", some "mod.C", none, none⟩

/-- A model object with one non-callable public attribute `x`. -/
def objC7 : ModelObject := ⟨"C7Obj", [("x", ⟨false, [], none, attrNoop⟩)]⟩

/-- A model object with a public callable `f` and a non-callable `g`. -/
def objC7w : ModelObject :=
  ⟨"C7wObj", [("f", ⟨true, ["x"], none, attrNoop⟩), ("g", ⟨false, [], none, attrNoop⟩)]⟩

/-- A model object with a public callable, a private callable and a public
non-callable attribute. -/
def objC8 : ModelObject :=
  ⟨"C8Obj", [("foo", ⟨true, [], none, attrNoop⟩),
             ("_hidden", ⟨true, [], none, attrNoop⟩),
             ("val", ⟨false, [], none, attrNoop⟩)]⟩

/-- A model object with one public callable `go`. -/
def objC2 : ModelObject := ⟨"C2Obj", [("go", ⟨true, [], none, attrNoop⟩)]⟩

/-- An environment in which `mods.Good` resolves but `mods.Missing` does not. -/
def envC2 : Env := [("mods.Good", fun _ => .ok objC2)]

/-- A config entry whose class path does not resolve. -/
def cfgC2bad : RawModelConfig := ⟨some "bad", some "mods.Missing", none, none⟩

/-- A config entry that registers fine on its own. -/
def cfgC2good : RawModelConfig := ⟨some "good", some "mods.Good", none, none⟩

/-- Is the decoded request one of the two special actions? -/
def isSpecialAction : Except PyExc Request → Bool
  | .error _ => false
  | .ok d => d.action == some "list_models" || d.action == some "function_signature"

/-- A model object with one public callable `f` taking `x`. -/
def objC5 : ModelObject := ⟨"C5Obj", [("f", ⟨true, ["x"], none, attrNoop⟩)]⟩

/-- A one-model registry for the dispatcher witnesses. -/
def stC5 : State := register_model initState "m" objC5 (.flist ["f"])

/-- A model object with one documented public callable `f` taking `x`. -/
def objC6 : ModelObject := ⟨"C6Obj", [("f", ⟨true, ["x"], some "docs", attrNoop⟩)]⟩

/-- A one-model registry for the C6 witness. -/
def stC6 : State := register_model initState "m" objC6 (.flist ["f"])

/-- The first registration of the C9 counterexample, exposing `f1`. -/
def objC9a : ModelObject := ⟨"A", [("f1", ⟨true, [], none, attrNoop⟩)]⟩

/-- The second registration of the C9 counterexample, exposing `f2`. -/
def objC9b : ModelObject := ⟨"B", [("f2", ⟨true, [], none, attrNoop⟩)]⟩

/-- An environment resolving `m9.C` to the first object. -/
def envC9 : Env := [("m9.C", fun _ => .ok objC9a)]

/-- The config used by the first registration of the C9 counterexample. -/
def cfgC9 : RawModelConfig := ⟨some "m", some "m9.C", none, some (.flist ["f1"])⟩

/-! ### Theorems -/

theorem dictGet_dictSet {α : Type} (k k' : String) (v : α) (d : List (String × α)) :
    dictGet k (dictSet k' v d) = if k' = k then some v else dictGet k d := by
  induction d with
  | nil => simp [dictGet, dictSet]
  | cons p t ih =>
    obtain ⟨a, b⟩ := p
    by_cases h1 : a = k' <;> by_cases h2 : k' = k <;>
      simp_all [dictGet, dictSet]

theorem dictKeys_dictSet {α : Type} (k : String) (v : α) (d : List (String × α)) :
    dictKeys (dictSet k v d) = keysIns k (dictKeys d) := by
  induction d with
  | nil => rfl
  | cons p t ih =>
    obtain ⟨a, b⟩ := p
    simp only [dictSet, dictKeys, List.map, keysIns]
    by_cases h : a = k
    · simp [h, dictKeys]
    · simp only [if_neg h]
      simpa [dictKeys] using ih

theorem dictKeys_dictDel {α : Type} (k : String) (d : List (String × α)) :
    dictKeys (dictDel k d) = keysDel k (dictKeys d) := by
  induction d with
  | nil => rfl
  | cons p t ih =>
    obtain ⟨a, b⟩ := p
    simp only [dictDel, dictKeys, List.map, keysDel]
    by_cases h : a = k
    · simp [h, dictKeys]
    · simp only [if_neg h]
      simpa [dictKeys] using ih

theorem dictGet_isSome_iff_mem_keys {α : Type} (k : String) (d : List (String × α)) :
    (dictGet k d).isSome = true ↔ k ∈ dictKeys d := by
  induction d with
  | nil => simp [dictGet, dictKeys]
  | cons p t ih =>
    obtain ⟨a, b⟩ := p
    by_cases h : a = k
    · simp_all [dictGet, dictKeys]
    · simp_all [dictGet, dictKeys]
      exact fun hka => absurd hka (fun hh => h hh.symm)

theorem dictHas_false_dictGet {α : Type} (k : String) (d : List (String × α))
    (h : dictHas k d = false) : dictGet k d = none := by
  unfold dictHas at h
  cases hg : dictGet k d with
  | none => rfl
  | some v => rw [hg] at h; simp at h

theorem regInv_register_model (s : State) (n : String) (m : ModelObject) (f : FunctionSpec)
    (h : regInv s) : regInv (register_model s n m f) := by
  unfold regInv register_model at *
  simp only [dictKeys_dictSet, h]

theorem regInv_register_model_from_config (env : Env) (s : State) (c : RawModelConfig)
    (s' : State) (h : regInv s) (hok : register_model_from_config env s c = .ok s') :
    regInv s' := by
  unfold register_model_from_config at hok
  split at hok
  · simp at hok
  · split at hok
    · simp at hok
    · split at hok
      · simp at hok
      · simp only [Except.ok.injEq] at hok
        subst hok
        exact regInv_register_model s _ _ _ h

theorem regInv_unregister_model (s : State) (n : String) (h : regInv s) :
    regInv (unregister_model s n) := by
  unfold unregister_model
  split
  · unfold regInv at *
    simp only [dictKeys_dictDel, h]
  · exact h

theorem regInv_applyOp (env : Env) (s : State) (o : Op) (h : regInv s) :
    regInv (applyOp env s o) := by
  cases o with
  | reg n m f => exact regInv_register_model s n m f h
  | regCfg c =>
    simp only [applyOp]
    cases hr : register_model_from_config env s c with
    | ok s' => exact regInv_register_model_from_config env s c s' h hr
    | error e => exact h
  | unreg n => exact regInv_unregister_model s n h

theorem regInv_foldl (env : Env) (ops : List Op) (s : State) (h : regInv s) :
    regInv (ops.foldl (applyOp env) s) := by
  induction ops generalizing s with
  | nil => exact h
  | cons o rest ih => exact ih _ (regInv_applyOp env s o h)

/-- C10: after any sequence of `register_model`, `register_model_from_config`
and `unregister_model` operations, the key set of the per-model function-table
dict equals the key set of the models dict — every registered model has a
(possibly empty) function table, and unregistering leaves no orphan table. -/
theorem c10_registry_function_table_keys_match (env : Env) (ops : List Op) :
    dictKeys (runOps env ops).models = dictKeys (runOps env ops).model_functions :=
  regInv_foldl env ops initState rfl

theorem dictGet_listStep_foldl (inst : ModelObject) (names : List String)
    (t : List (String × Attr)) (k : String) :
    dictGet k (names.foldl (listStep inst) t) =
      if names.contains k && dictHas k inst.attrs then dictGet k inst.attrs
      else dictGet k t := by
  induction names generalizing t with
  | nil => simp
  | cons n rest ih =>
    simp only [List.foldl_cons]
    rw [ih]
    by_cases hk : n = k
    · subst hk
      cases hg : dictGet n inst.attrs with
      | some a =>
        have hhas : dictHas n inst.attrs = true := by simp [dictHas, hg]
        by_cases hrest : rest.contains n
        · simp [hrest, hhas, hg, listStep, dictGet_dictSet]
        · simp [listStep, hrest, hhas, hg, dictGet_dictSet]
      | none =>
        have hhas : dictHas n inst.attrs = false := by simp [dictHas, hg]
        simp [listStep, hhas, hg]
    · have hkn : ¬ (k = n) := fun hh => hk hh.symm
      have hacc : dictGet k (listStep inst t n) = dictGet k t := by
        unfold listStep
        cases hg : dictGet n inst.attrs with
        | some a => rw [dictGet_dictSet, if_neg hk]
        | none => rfl
      rw [hacc]
      simp [List.contains_cons, hkn]

/-- Explicit-list tables: a name is bound iff it is listed and the attribute
exists; the bound value is the attribute itself (callable or not). -/
theorem dictGet_buildTableList (inst : ModelObject) (names : List String) (k : String) :
    dictGet k (buildTableList inst names) =
      if names.contains k && dictHas k inst.attrs then dictGet k inst.attrs else none := by
  have h := dictGet_listStep_foldl inst names [] k
  simpa [buildTableList, dictGet] using h

theorem dictGet_mapStep_foldl_untouched (inst : ModelObject) (pairs : List (String × String))
    (t : List (String × Attr)) (e : String) (h : e ∉ pairs.map Prod.fst) :
    dictGet e (pairs.foldl (mapStep inst) t) = dictGet e t := by
  induction pairs generalizing t with
  | nil => rfl
  | cons p rest ih =>
    obtain ⟨e', m'⟩ := p
    simp only [List.map_cons, List.mem_cons, not_or] at h
    obtain ⟨h1, h2⟩ := h
    simp only [List.foldl_cons]
    rw [ih _ h2]
    show dictGet e (match dictGet m' inst.attrs with
      | some a => dictSet e' a t
      | none => t) = dictGet e t
    cases hg : dictGet m' inst.attrs with
    | some a =>
      have h3 : ¬ (e' = e) := fun hh => h1 hh.symm
      rw [dictGet_dictSet, if_neg h3]
    | none => rfl

theorem dictGet_mapStep_foldl (inst : ModelObject) (pairs : List (String × String))
    (t : List (String × Attr)) (e m : String)
    (hnd : (pairs.map Prod.fst).Nodup) (hmem : (e, m) ∈ pairs)
    (ht : dictGet e t = none) :
    dictGet e (pairs.foldl (mapStep inst) t) = dictGet m inst.attrs := by
  induction pairs generalizing t with
  | nil => cases hmem
  | cons p rest ih =>
    obtain ⟨e', m'⟩ := p
    simp only [List.map_cons, List.nodup_cons] at hnd
    obtain ⟨hnotin, hnd'⟩ := hnd
    simp only [List.foldl_cons]
    rcases List.mem_cons.mp hmem with heq | hmem'
    · rw [Prod.mk.injEq] at heq
      obtain ⟨he, hm⟩ := heq
      subst he
      subst hm
      rw [dictGet_mapStep_foldl_untouched inst rest _ e hnotin]
      show dictGet e (match dictGet m inst.attrs with
        | some a => dictSet e a t
        | none => t) = dictGet m inst.attrs
      cases hg : dictGet m inst.attrs with
      | some a => rw [dictGet_dictSet, if_pos rfl]
      | none => exact ht
    · have hee : ¬ (e' = e) := by
        intro hh
        subst hh
        exact hnotin (List.mem_map_of_mem Prod.fst hmem')
      refine ih _ hnd' hmem' ?_
      show dictGet e (match dictGet m' inst.attrs with
        | some a => dictSet e' a t
        | none => t) = none
      cases hg : dictGet m' inst.attrs with
      | some a => rw [dictGet_dictSet, if_neg hee]; exact ht
      | none => exact ht

/-- Rename-map tables: under distinct exposed names, each pair binds the
underlying attribute (callable or not) under its exposed name, and is dropped
exactly when the underlying attribute does not exist. -/
theorem dictGet_buildTableMap (inst : ModelObject) (pairs : List (String × String)) (e m : String)
    (hnd : (pairs.map Prod.fst).Nodup) (hmem : (e, m) ∈ pairs) :
    dictGet e (buildTableMap inst pairs) = dictGet m inst.attrs :=
  dictGet_mapStep_foldl inst pairs [] e m hnd hmem rfl

theorem dictGet_autoStep_foldl_untouched (l : List (String × Attr)) (t : List (String × Attr))
    (k : String) (h : k ∉ l.map Prod.fst) :
    dictGet k (l.foldl autoStep t) = dictGet k t := by
  induction l generalizing t with
  | nil => rfl
  | cons p rest ih =>
    obtain ⟨n, a⟩ := p
    simp only [List.map_cons, List.mem_cons, not_or] at h
    obtain ⟨h1, h2⟩ := h
    simp only [List.foldl_cons]
    rw [ih _ h2]
    have h3 : ¬ (n = k) := fun hh => h1 hh.symm
    show dictGet k (if a.callable && !(pyStartsWithUnderscore n) then dictSet n a t else t) = dictGet k t
    split
    · rw [dictGet_dictSet, if_neg h3]
    · rfl

theorem dictGet_autoStep_foldl (l : List (String × Attr)) (t : List (String × Attr)) (k : String)
    (hnd : (l.map Prod.fst).Nodup) :
    dictGet k (l.foldl autoStep t) =
      match dictGet k l with
      | some a => if a.callable && !(pyStartsWithUnderscore k) then some a else dictGet k t
      | none => dictGet k t := by
  induction l generalizing t with
  | nil => rfl
  | cons p rest ih =>
    obtain ⟨n, a⟩ := p
    simp only [List.map_cons, List.nodup_cons] at hnd
    obtain ⟨hnotin, hnd'⟩ := hnd
    simp only [List.foldl_cons]
    by_cases hk : n = k
    · subst hk
      rw [dictGet_autoStep_foldl_untouched rest _ n hnotin]
      have hd : dictGet n ((n, a) :: rest) = some a := by simp [dictGet]
      simp only [hd]
      show dictGet n (if a.callable && !(pyStartsWithUnderscore n) then dictSet n a t else t) =
        if a.callable && !(pyStartsWithUnderscore n) then some a else dictGet n t
      by_cases hp : (a.callable && !(pyStartsWithUnderscore n)) = true
      · rw [if_pos hp, if_pos hp, dictGet_dictSet, if_pos rfl]
      · rw [if_neg hp, if_neg hp]
    · rw [ih _ hnd']
      have hacc : dictGet k (autoStep t (n, a)) = dictGet k t := by
        show dictGet k (if a.callable && !(pyStartsWithUnderscore n) then dictSet n a t else t) =
          dictGet k t
        split
        · rw [dictGet_dictSet, if_neg hk]
        · rfl
      rw [hacc]
      have hd : dictGet k ((n, a) :: rest) = dictGet k rest := by simp [dictGet, hk]
      rw [hd]

/-- Auto-discovery tables: an attribute survives iff it is callable and not
private-prefixed. -/
theorem dictGet_buildTableAuto (inst : ModelObject) (k : String)
    (hnd : (inst.attrs.map Prod.fst).Nodup) :
    dictGet k (buildTableAuto inst) =
      match dictGet k inst.attrs with
      | some a => if a.callable && !(pyStartsWithUnderscore k) then some a else none
      | none => none := by
  unfold buildTableAuto
  rw [dictGet_autoStep_foldl inst.attrs [] k hnd]
  cases hg : dictGet k inst.attrs <;> rfl

/-- C1 counterexample: registering `objC1` (which has the public callable
`foo`, as auto-discovery would report) from a config without a `functions`
key yields an empty function table, not an auto-discovered one. -/
theorem c1_counterexample_autodiscover_default :
    (register_model_from_config envC1 initState cfgC1).toOption.map
      (fun t => (dictGet "m" t.model_functions).map dictKeys) = some (some []) ∧
    dictKeys (buildTableAuto objC1) = ["foo"] ∧
    (dictGet "foo" objC1.attrs).map Attr.callable = some true := by
  refine ⟨by decide, by decide, by decide⟩

/-- C1 (amended): a model entry that omits the `functions` key defaults to the
empty list, so its registered function table is empty — auto-discovery is not
applied. -/
theorem c1_config_functions_default_empty_table (env : Env) (s : State)
    (cfg : RawModelConfig) (mn cp : String) (inst : ModelObject)
    (hn : cfg.name = some mn) (hc : cfg.class_path = some cp) (hf : cfg.functions = none)
    (hinst : importAndInstantiate env cp (cfg.init_params.getD []) = .ok inst) :
    (register_model_from_config env s cfg).toOption.map
      (fun t => dictGet mn t.model_functions) = some (some []) := by
  unfold register_model_from_config
  simp only [hn, hc, hf, hinst]
  simp [Except.toOption, register_model, dictGet_dictSet, buildTable, buildTableList]

/-- C1 witness: the amended claim at the concrete input of the counterexample. -/
theorem c1_config_functions_default_empty_table_witness :
    (register_model_from_config envC1 initState cfgC1).toOption.map
      (fun t => dictGet "m" t.model_functions) = some (some []) :=
  c1_config_functions_default_empty_table envC1 initState cfgC1 "m" "mod.C" objC1
    rfl rfl rfl rfl

/-- C7 counterexample: the explicit list `["x", "missing"]` binds `x` even
though `x` is not callable — only the nonexistent attribute is skipped, so
"does not resolve to an existing callable" is not the skip condition. -/
theorem c7_counterexample_noncallable_bound :
    dictKeys (buildTableList objC7 ["x", "missing"]) = ["x"] ∧
    (dictGet "x" objC7.attrs).map Attr.callable = some false ∧
    (dictGet "x" (buildTableList objC7 ["x", "missing"])).map Attr.callable = some false := by
  refine ⟨by decide, by decide, by decide⟩

/-- C7 (amended): for `ExplicitList` and `RenameMap` specs, a referenced name
is silently skipped exactly when the attribute does not exist on the object
(`hasattr` fails); any existing attribute — callable or not — is bound under
its exposed name. -/
theorem c7_explicit_specs_skip_only_missing_attrs (inst : ModelObject)
    (names : List String) (pairs : List (String × String)) (k e m : String)
    (hnd : (pairs.map Prod.fst).Nodup) (hmem : (e, m) ∈ pairs) :
    dictGet k (buildTableList inst names) =
      (if names.contains k && dictHas k inst.attrs then dictGet k inst.attrs else none) ∧
    dictGet e (buildTableMap inst pairs) = dictGet m inst.attrs :=
  ⟨dictGet_buildTableList inst names k, dictGet_buildTableMap inst pairs e m hnd hmem⟩

/-- C7 witness: the amended claim at a concrete explicit list and rename map. -/
theorem c7_explicit_specs_skip_only_missing_attrs_witness :
    dictGet "f" (buildTableList objC7w ["f", "nope"]) =
      (if ["f", "nope"].contains "f" && dictHas "f" objC7w.attrs
       then dictGet "f" objC7w.attrs else none) ∧
    dictGet "exp" (buildTableMap objC7w [("exp", "f"), ("gone", "nope")]) =
      dictGet "f" objC7w.attrs :=
  c7_explicit_specs_skip_only_missing_attrs objC7w ["f", "nope"]
    [("exp", "f"), ("gone", "nope")] "f" "exp" "f" (by decide) (by decide)

/-- C8: registering with a `functions` value that is neither a list nor a dict
stores the auto-discovered table, whose keys are exactly the attribute names
that are callable and do not begin with an underscore. -/
theorem c8_autodiscover_public_callables (s : State) (n : String)
    (inst : ModelObject) (k : String) (hnd : (inst.attrs.map Prod.fst).Nodup) :
    dictGet n (register_model s n inst .fother).model_functions = some (buildTableAuto inst) ∧
    (k ∈ dictKeys (buildTableAuto inst) ↔
      (∃ a, dictGet k inst.attrs = some a ∧ a.callable = true) ∧ pyStartsWithUnderscore k = false) := by
  constructor
  · unfold register_model
    simp [dictGet_dictSet, buildTable]
  · rw [← dictGet_isSome_iff_mem_keys]
    rw [dictGet_buildTableAuto inst k hnd]
    cases hg : dictGet k inst.attrs with
    | none => simp
    | some a =>
      by_cases hc : a.callable = true
      · by_cases hs : pyStartsWithUnderscore k = true
        · simp [hc, hs]
        · simp [hc, hs]
      · simp [hc]

/-- C8 witness: the claim at a concrete object. -/
theorem c8_autodiscover_public_callables_witness :
    dictGet "m" (register_model initState "m" objC8 .fother).model_functions =
      some (buildTableAuto objC8) ∧
    ("foo" ∈ dictKeys (buildTableAuto objC8) ↔
      (∃ a, dictGet "foo" objC8.attrs = some a ∧ a.callable = true) ∧
        pyStartsWithUnderscore "foo" = false) :=
  c8_autodiscover_public_callables initState "m" objC8 "foo" (by decide)

theorem registerAll_append (env : Env) (l1 l2 : List RawModelConfig) (s : State) :
    registerAll env s (l1 ++ l2) =
      match registerAll env s l1 with
      | (s1, none) => registerAll env s1 l2
      | (s1, some e) => (s1, some e) := by
  induction l1 generalizing s with
  | nil => rfl
  | cons c rest ih =>
    simp only [List.cons_append, registerAll]
    cases hr : register_model_from_config env s c with
    | ok s' => exact ih s'
    | error e => rfl

/-- C2 counterexample: with `[bad, good]` in one document, the resolution
failure of `bad` aborts the registration loop, so `good` — although
registrable on its own — is not registered afterwards. -/
theorem c2_counterexample_later_model_not_registered :
    dictKeys (load_config envC2 "cfg.yml"
      (.ok ⟨[cfgC2bad, cfgC2good]⟩) initState).1.models = [] ∧
    exceptIsOk (register_model_from_config envC2 initState cfgC2good) = true := by
  refine ⟨by decide, by decide⟩

/-- C2 (amended): a failing registration is fatal for the rest of the
document, not just for the one model: entries before the failing one stay
registered, the failing entry's exception aborts the loop, and `load_config`
returns the partial state with a printed warning — entries after the failing
one are never processed. -/
theorem c2_failure_aborts_remaining_registrations (env : Env) (config_path : String)
    (s : State) (pre : List RawModelConfig) (c : RawModelConfig) (post : List RawModelConfig)
    (hpre : (registerAll env s pre).2 = none)
    (hc : exceptIsOk (register_model_from_config env (registerAll env s pre).1 c) = false) :
    load_config env config_path (.ok ⟨pre ++ c :: post⟩) s =
      ((registerAll env s pre).1,
       some (warnMsg config_path
         (regErrMsg (register_model_from_config env (registerAll env s pre).1 c)))) := by
  rcases hra : registerAll env s pre with ⟨s1, r⟩
  rw [hra] at hpre hc
  dsimp only at hpre hc
  subst hpre
  unfold load_config
  simp only [registerAll_append, hra, registerAll]
  cases hrc : register_model_from_config env s1 c with
  | ok s' =>
    rw [hrc] at hc
    simp [exceptIsOk] at hc
  | error e => simp [regErrMsg]

/-- C2 witness: the amended claim at the concrete two-entry document. -/
theorem c2_failure_aborts_remaining_registrations_witness :
    load_config envC2 "cfg.yml" (.ok ⟨[cfgC2good] ++ cfgC2bad :: []⟩) initState =
      ((registerAll envC2 initState [cfgC2good]).1,
       some (warnMsg "cfg.yml"
         (regErrMsg (register_model_from_config envC2
           (registerAll envC2 initState [cfgC2good]).1 cfgC2bad)))) :=
  c2_failure_aborts_remaining_registrations envC2 "cfg.yml" initState
    [cfgC2good] cfgC2bad [] (by decide) (by decide)

/-- C3 counterexample: a document with malformed syntax, and a document whose
first entry lacks `name`, both "load" without any error reaching the caller:
`load_config` returns normally with the state unchanged and only a printed
warning — nothing is propagated, and the schema violation is likewise
swallowed. -/
theorem c3_counterexample_errors_swallowed :
    load_config [] "cfg.yml" (.error "bad syntax") initState =
      (initState, some (warnMsg "cfg.yml" "bad syntax")) ∧
    load_config [] "cfg.yml" (.ok ⟨[⟨none, some "mods.Good", none, none⟩]⟩) initState =
      (initState, some (warnMsg "cfg.yml" "'name'")) :=
  ⟨rfl, rfl⟩

/-- C3 (amended): `load_config` catches every load-time failure: a parse
error and a missing-`name` schema error are both converted to a printed
warning, the state is unchanged, and no error propagates to the caller. -/
theorem c3_load_config_swallows_errors (env : Env) (config_path : String) (s : State)
    (e : String) (cfg : RawModelConfig) (rest : List RawModelConfig)
    (hname : cfg.name = none) :
    load_config env config_path (.error e) s = (s, some (warnMsg config_path e)) ∧
    load_config env config_path (.ok ⟨cfg :: rest⟩) s =
      (s, some (warnMsg config_path "'name'")) := by
  constructor
  · rfl
  · obtain ⟨cn, cc, ci, cf⟩ := cfg
    dsimp only at hname
    subst hname
    rfl

/-- C3 witness: the amended claim at concrete malformed inputs. -/
theorem c3_load_config_swallows_errors_witness :
    load_config [] "cfg.yml" (.error "bad") initState =
      (initState, some (warnMsg "cfg.yml" "bad")) ∧
    load_config [] "cfg.yml" (.ok ⟨(⟨none, none, none, none⟩ : RawModelConfig) :: []⟩) initState =
      (initState, some (warnMsg "cfg.yml" "'name'")) :=
  c3_load_config_swallows_errors [] "cfg.yml" initState "bad" ⟨none, none, none, none⟩ [] rfl

theorem rwCall_invoke (st : State) (d : Request)
    (ha1 : (d.action == some "list_models") = false)
    (ha2 : (d.action == some "function_signature") = false) :
    rwCall st (.ok d) = invokeAction st d := by
  simp only [rwCall, ha1, ha2]
  rfl

theorem exactlyOne_invokeAction (st : State) (d : Request) :
    exactlyOneResultError (invokeAction st d) = true := by
  dsimp only [invokeAction]
  repeat' split
  all_goals rfl

/-- C4 counterexample: the `list_models` response `{models: ...}` contains
neither `result` nor `error`, so "every response carries exactly one of the
two, including `list_models`" fails. -/
theorem c4_counterexample_list_models_neither :
    exactlyOneResultError
      (rwCall initState (.ok ⟨some "list_models", none, none, none⟩)) = false ∧
    hasKey (rwCall initState (.ok ⟨some "list_models", none, none, none⟩)) "result" = false ∧
    hasKey (rwCall initState (.ok ⟨some "list_models", none, none, none⟩)) "error" = false := by
  refine ⟨by decide, by decide, by decide⟩

/-- C4 (amended): every decode-failure response and every response of the
default invoke path carries exactly one of `result`/`error`; but a
`list_models` response carries `models` (and a `function_signature` success
response carries the signature fields), i.e. neither `result` nor `error`, so
the claim holds only away from the two special actions. -/
theorem c4_invoke_responses_exactly_one_result_or_error (st : State)
    (decoded : Except PyExc Request) (h : isSpecialAction decoded = false) :
    exactlyOneResultError (rwCall st decoded) = true := by
  cases decoded with
  | error e => rfl
  | ok d =>
    simp only [isSpecialAction, Bool.or_eq_false_iff] at h
    obtain ⟨h1, h2⟩ := h
    rw [rwCall_invoke st d h1 h2]
    exact exactlyOne_invokeAction st d

/-- C4 witness: the amended claim on a plain invoke request. -/
theorem c4_invoke_responses_exactly_one_result_or_error_witness :
    exactlyOneResultError (rwCall initState (.ok ⟨none, none, none, none⟩)) = true :=
  c4_invoke_responses_exactly_one_result_or_error initState
    (.ok ⟨none, none, none, none⟩) (by decide)

/-- C5: the invoke path validates in order — missing/empty model name, then
missing function name (even when the model does not exist), then unknown
model, then unknown function — each with exactly the stated payload. -/
theorem c5_invoke_validation_order (st : State) (a : Option String)
    (mn1 mn2 fn : String) (p : List (String × Value))
    (ha1 : (a == some "list_models") = false)
    (ha2 : (a == some "function_signature") = false)
    (hm1 : mn1 ≠ "") (hm2 : mn2 ≠ "") (hf : fn ≠ "")
    (habsent : dictHas mn1 st.models = false)
    (hpresent : dictHas mn2 st.models = true)
    (hfn : dictHas fn ((dictGet mn2 st.model_functions).getD []) = false) :
    rwCall st (.ok ⟨a, none, some fn, some p⟩) =
      [("error", RVal.s "Model name is required"),
       ("available_models", RVal.strs (dictKeys st.models))] ∧
    rwCall st (.ok ⟨a, some "", some fn, some p⟩) =
      [("error", RVal.s "Model name is required"),
       ("available_models", RVal.strs (dictKeys st.models))] ∧
    rwCall st (.ok ⟨a, some mn1, none, some p⟩) =
      [("error", RVal.s "Function name is required")] ∧
    rwCall st (.ok ⟨a, some mn1, some fn, some p⟩) =
      [("error", RVal.s ("Model '" ++ mn1 ++ "' not found")),
       ("available_models", RVal.strs (dictKeys st.models))] ∧
    rwCall st (.ok ⟨a, some mn2, some fn, some p⟩) =
      [("error", RVal.s ("Function '" ++ fn ++ "' not found for model '" ++ mn2 ++ "'")),
       ("available_functions",
        RVal.strs (dictKeys ((dictGet mn2 st.model_functions).getD [])))] := by
  have hb1 : (mn1 == "") = false := beq_eq_false_iff_ne.mpr hm1
  have hb2 : (mn2 == "") = false := beq_eq_false_iff_ne.mpr hm2
  have hbf : (fn == "") = false := beq_eq_false_iff_ne.mpr hf
  refine ⟨?_, ?_, ?_, ?_, ?_⟩
  · rw [rwCall_invoke st _ ha1 ha2]
    simp [invokeAction, truthy]
  · rw [rwCall_invoke st _ ha1 ha2]
    simp [invokeAction, truthy]
  · rw [rwCall_invoke st _ ha1 ha2]
    simp [invokeAction, truthy, hb1]
  · rw [rwCall_invoke st _ ha1 ha2]
    simp [invokeAction, truthy, hb1, hbf, habsent]
  · rw [rwCall_invoke st _ ha1 ha2]
    simp [invokeAction, truthy, hb2, hbf, hpresent,
          dictHas_false_dictGet _ _ hfn]

/-- C5 witness: the validation chain on a concrete one-model registry. -/
theorem c5_invoke_validation_order_witness :
    rwCall stC5 (.ok ⟨none, none, some "g", some []⟩) =
      [("error", RVal.s "Model name is required"),
       ("available_models", RVal.strs (dictKeys stC5.models))] ∧
    rwCall stC5 (.ok ⟨none, some "", some "g", some []⟩) =
      [("error", RVal.s "Model name is required"),
       ("available_models", RVal.strs (dictKeys stC5.models))] ∧
    rwCall stC5 (.ok ⟨none, some "nope", none, some []⟩) =
      [("error", RVal.s "Function name is required")] ∧
    rwCall stC5 (.ok ⟨none, some "nope", some "g", some []⟩) =
      [("error", RVal.s ("Model '" ++ "nope" ++ "' not found")),
       ("available_models", RVal.strs (dictKeys stC5.models))] ∧
    rwCall stC5 (.ok ⟨none, some "m", some "g", some []⟩) =
      [("error", RVal.s ("Function '" ++ "g" ++ "' not found for model '" ++ "m" ++ "'")),
       ("available_functions",
        RVal.strs (dictKeys ((dictGet "m" stC5.model_functions).getD [])))] :=
  c5_invoke_validation_order stC5 none "nope" "m" "g" []
    (by decide) (by decide) (by decide) (by decide) (by decide)
    (by decide) (by decide) (by decide)

/-- C6: invoking a registered callable with keyword names that do not match
its declared parameters yields the signature-mismatch response — an `error`
starting with "Function signature mismatch", an `expected_signature` field and
the provided parameters — returned as an ordinary response (nothing escapes
the dispatcher). -/
theorem c6_signature_mismatch_response (st : State) (a : Option String)
    (mn fn : String) (p : List (String × Value)) (tbl : List (String × Attr)) (f : Attr)
    (ha1 : (a == some "list_models") = false)
    (ha2 : (a == some "function_signature") = false)
    (hm : mn ≠ "") (hf : fn ≠ "")
    (hmodel : dictHas mn st.models = true)
    (htbl : dictGet mn st.model_functions = some tbl)
    (hfn : dictGet fn tbl = some f)
    (hcallable : f.callable = true)
    (hmismatch : sigMatches f.params (p.map Prod.fst) = false) :
    rwCall st (.ok ⟨a, some mn, some fn, some p⟩) =
      [("error",
        RVal.s ("Function signature mismatch: unexpected or missing keyword arguments")),
       ("expected_signature", RVal.s (sigStr f)),
       ("provided_parameters", RVal.kw p)] := by
  rw [rwCall_invoke st _ ha1 ha2]
  simp [invokeAction, truthy, beq_eq_false_iff_ne.mpr hm, beq_eq_false_iff_ne.mpr hf,
        hmodel, htbl, hfn, callKwargs, hcallable, hmismatch]

/-- C6 witness: calling `f(x)` with the wrong keyword `y`. -/
theorem c6_signature_mismatch_response_witness :
    rwCall stC6 (.ok ⟨none, some "m", some "f", some [("y", Value.vnone)]⟩) =
      [("error",
        RVal.s ("Function signature mismatch: unexpected or missing keyword arguments")),
       ("expected_signature", RVal.s (sigStr ⟨true, ["x"], some "docs", attrNoop⟩)),
       ("provided_parameters", RVal.kw [("y", Value.vnone)])] :=
  c6_signature_mismatch_response stC6 none "m" "f" [("y", Value.vnone)]
    (buildTableList objC6 ["f"]) ⟨true, ["x"], some "docs", attrNoop⟩
    (by decide) (by decide) (by decide) (by decide) (by decide) rfl rfl rfl (by decide)

theorem dictGet_list_models (s : State) (n : String) :
    dictGet n (list_models s) =
      (dictGet n s.models).map (fun m =>
        (⟨m.pyType, dictKeys ((dictGet n s.model_functions).getD []),
          (dictGet n s.model_configs).getD emptyConfig⟩ : ModelInfo)) := by
  unfold list_models
  generalize s.models = l
  induction l with
  | nil => rfl
  | cons p t ih =>
    obtain ⟨a, b⟩ := p
    by_cases h : a = n
    · subst h
      simp [dictGet]
    · simp [dictGet, h, ih]

/-- C9 counterexample: register `m` from config, then re-register `m`
directly with `register_model`; `list()` afterwards reports the second
registration's type `B` and functions `["f2"]` but the FIRST registration's
configuration — a mixture of both registrations, not a wholesale replacement
by the second one (whose configuration is empty). -/
theorem c9_counterexample_stale_config :
    (register_model_from_config envC9 initState cfgC9).toOption.map
      (fun s1 => dictGet "m" (list_models (register_model s1 "m" objC9b (.flist ["f2"])))) =
      some (some ⟨"B", ["f2"], cfgC9⟩) ∧
    cfgC9 ≠ emptyConfig := by
  refine ⟨by decide, by decide⟩

/-- C9 (amended): a second `register_model` under the same name wholly
replaces the model object and the function table — `list()` then reports
exactly the second registration's type and function names — but
`register_model` never touches `model_configs`, so `list()` keeps showing
whatever configuration an earlier config-based registration stored (or `{}`
if none). -/
theorem c9_reregistration_replaces_object_and_table (s : State) (n : String)
    (o1 o2 : ModelObject) (f1 f2 : FunctionSpec) :
    dictGet n (list_models (register_model (register_model s n o1 f1) n o2 f2)) =
      some ⟨o2.pyType, dictKeys (buildTable o2 f2),
            (dictGet n s.model_configs).getD emptyConfig⟩ ∧
    (register_model s n o2 f2).model_configs = s.model_configs := by
  refine ⟨?_, rfl⟩
  rw [dictGet_list_models]
  simp [register_model, dictGet_dictSet]
